import Mathlib

/-!
Shallow embedding of the wifi-performance-tracker backend core
(`src/backend/app/modules/ping_service.py`, `src/backend/app/modules/crud.py`,
`src/backend/app/api/routers/websocket.py`) and proofs about it.

Nondeterministic effects of the Python code (the `ping3.ping` call, database
insert failures, WebSocket send failures, database query outcomes) are made
explicit oracle parameters; everything else is a direct translation of the
source functions.
-/

namespace WifiTracker

/-- One ping result dict as built by `PingMonitor.ping_host`
(`{host, response_time_ms, packet_loss, error_message, timestamp}`). -/
structure Measurement where
  host : String
  response_time_ms : Option ℚ
  packet_loss : Bool
  error_message : Option String
  timestamp : String
deriving Repr, DecidableEq

/-- Outcome of the underlying `ping3.ping(host, timeout=timeout, unit='ms')`
call: a latency value, `None` (timeout / unreachable), or a raised
exception with message `msg`. -/
inductive PingOutcome where
  | value (rt : ℚ)
  | timeout
  | raised (msg : String)
deriving Repr, DecidableEq

/-- Python `round(x, 2)` on the latency value (ties behave as round-half-away
in the model; the source rounds floats, where the distinction is immaterial
to every property proved here). -/
def round2 (q : ℚ) : ℚ := (round (q * 100) : ℤ) / 100

/-- `PingMonitor.ping_host`: the whole body is wrapped in try/except, so every
outcome of the `ping` call (including a raised exception) is mapped to a
returned measurement dict; the function itself never raises. -/
def ping_host (host : String) (oc : PingOutcome) (now : String) : Measurement :=
  match oc with
  | .timeout =>
      { host := host, response_time_ms := none, packet_loss := true,
        error_message := some "Ping timeout or host unreachable", timestamp := now }
  | .value rt =>
      { host := host, response_time_ms := some (round2 rt), packet_loss := false,
        error_message := none, timestamp := now }
  | .raised msg =>
      { host := host, response_time_ms := none, packet_loss := true,
        error_message := some msg, timestamp := now }

/-- `PingMonitor.ping_all_hosts`: one probe per target host of the snapshot,
results aligned one-to-one with the host list (`asyncio.gather` preserves
task order). The oracle gives each host's probe outcome for this cycle. -/
def ping_all_hosts (oracle : String → PingOutcome) (now : String)
    (target_hosts : List String) : List Measurement :=
  target_hosts.map (fun h => ping_host h (oracle h) now)

/-- The reserved DNS-resolver host list `['8.8.8.8', '1.1.1.1', '208.67.222.222']`
used by `broadcast_to_websockets` to classify DNS status updates. -/
def dnsHosts : List String := ["8.8.8.8", "1.1.1.1", "208.67.222.222"]

/-- Boolean check that `needle` occurs at the head of `hay` (helper for the
Python substring test `needle in haystack`). -/
def headMatch : List Char → List Char → Bool
  | [], _ => true
  | _ :: _, [] => false
  | a :: as, b :: bs => a == b && headMatch as bs

/-- Boolean check that `needle` occurs somewhere in `hay`. -/
def occursIn (needle : List Char) : List Char → Bool
  | [] => needle.isEmpty
  | b :: bs => headMatch needle (b :: bs) || occursIn needle bs

/-- Python's `needle in haystack` on strings. -/
def containsSub (haystack needle : String) : Bool :=
  occursIn needle.data haystack.data

/-- The test `'/api/ws/dns-status' in client_path` from `broadcast_to_websockets`. -/
def isDnsPath (client_path : String) : Bool :=
  containsSub client_path "/api/ws/dns-status"

/-- The test `'/api/ws/ping-status' in client_path` from `broadcast_to_websockets`. -/
def isPingPath (client_path : String) : Bool :=
  containsSub client_path "/api/ws/ping-status"

/-- The message dicts that flow through `broadcast_to_websockets`:
`{'type': 'ping_result', 'result': ...}`,
`{'type': 'ping_update', 'results': ..., 'timestamp': ...}`, and the two
derived `{'type': 'dns_status_update', ...}` shapes (single-result and
result-list). -/
inductive WsData where
  | ping_result (result : Measurement)
  | ping_update (results : List Measurement) (timestamp : String)
  | dns_status_result (result : Measurement)
  | dns_status_update (results : List Measurement) (timestamp : String)
deriving Repr, DecidableEq

/-- All hosts occurring in a broadcast payload. -/
def payloadHosts : WsData → List String
  | .ping_result r => [r.host]
  | .ping_update rs _ => rs.map (fun r => r.host)
  | .dns_status_result r => [r.host]
  | .dns_status_update rs _ => rs.map (fun r => r.host)

/-- The classification prelude of `broadcast_to_websockets`: possibly replace
`data` by a derived DNS status update and compute `is_dns_update`.
Mirrors the Python truthiness guards: a `ping_update` with an empty
`results` list is not classified (empty list is falsy). -/
def classifyDns (data : WsData) : WsData × Bool :=
  match data with
  | .ping_result result =>
      if dnsHosts.contains result.host then (.dns_status_result result, true)
      else (data, false)
  | .ping_update results timestamp =>
      if results.isEmpty then (data, false)
      else
        let dns_results := results.filter (fun r => dnsHosts.contains r.host)
        if dns_results.isEmpty then (data, false)
        else (.dns_status_update dns_results timestamp, true)
  | _ => (data, false)

/-- The per-client send guard of `broadcast_to_websockets`:
`if is_dns_update and '/api/ws/dns-status' in client_path: send`
`elif not is_dns_update and '/api/ws/ping-status' in client_path: send`. -/
def sendCondition (is_dns_update : Bool) (client_path : String) : Bool :=
  (is_dns_update && isDnsPath client_path) ||
  (!is_dns_update && isPingPath client_path)

/-- One WebSocket client as seen by the monitor: its `path` attribute and
whether its `send_json` raises in the current call (the send-failure oracle). -/
structure Client where
  id : Nat
  path : String
  send_fails : Bool
deriving Repr, DecidableEq

/-- `PingMonitor.broadcast_to_websockets`: classify the data, attempt a send to
each client whose path matches the selected topic, collect clients whose send
raised into `clients_to_remove`, then discard them from the client set.
Returns the remaining client set and the list of successful deliveries
`(client, data)` in iteration order. The function catches every send
exception, so it raises nothing to its caller. -/
def broadcast_to_websockets (clients : List Client) (data0 : WsData) :
    List Client × List (Client × WsData) :=
  if clients.isEmpty then (clients, [])
  else
    let cl := classifyDns data0
    let clients_to_remove :=
      clients.filter (fun c => sendCondition cl.2 c.path && c.send_fails)
    let delivered :=
      (clients.filter (fun c => sendCondition cl.2 c.path && !c.send_fails)).map
        (fun c => (c, cl.1))
    (clients.filter (fun c => !clients_to_remove.contains c), delivered)

/-- The mutable fields of the `PingMonitor` singleton that the embedded
operations touch: lifecycle flag, target registry, subscriber set, and the
result cache `latest_results` (host → latest measurement; as a Python dict it
is modelled as an association list with unique keys kept in insertion order). -/
structure PingMonitorState where
  is_running : Bool
  ping_interval : ℤ
  target_hosts : List String
  websocket_clients : List Client
  latest_results : List (String × Measurement)
deriving Repr, DecidableEq

/-- Dict lookup `d.get(k)` on the result cache. -/
def cacheLookup (cache : List (String × Measurement)) (k : String) :
    Option Measurement :=
  (cache.find? (fun p => p.1 == k)).map Prod.snd

/-- Dict assignment `self.latest_results[result['host']] = result`: replace the
existing entry in place, or append a new one (Python dicts keep insertion
order). -/
def updateCache (cache : List (String × Measurement)) (r : Measurement) :
    List (String × Measurement) :=
  if cache.any (fun p => p.1 == r.host) then
    cache.map (fun p => if p.1 == r.host then (p.1, r) else p)
  else cache ++ [(r.host, r)]

/-- `PingMonitor.save_ping_results`: the try/except wraps the whole
`for result in results` loop, so the first failing insert raises out of the
loop and is caught once: every earlier result was inserted and cached, the
failing result and every later one are neither inserted nor cached.
`insertFails` is the oracle saying whether `db_manager.insert_ping_metric`
raises for a given result. Returns (new cache, inserted results, whether the
except branch logged an error). -/
def save_ping_results (insertFails : Measurement → Bool)
    (cache : List (String × Measurement)) :
    List Measurement → List (String × Measurement) × List Measurement × Bool
  | [] => (cache, [], false)
  | r :: rest =>
      if insertFails r then (cache, [], true)
      else
        let out := save_ping_results insertFails (updateCache cache r) rest
        (out.1, r :: out.2.1, out.2.2)

/-- One iteration of the body of `PingMonitor.monitoring_loop` while
`is_running`: probe all hosts, save results (best effort), build the
`ping_update` envelope with the full result list, broadcast it. Returns the
new monitor state, the envelope handed to `broadcast_to_websockets`, and the
deliveries the broadcast performed. -/
def monitoring_cycle (oracle : String → PingOutcome)
    (insertFails : Measurement → Bool) (now : String) (st : PingMonitorState) :
    PingMonitorState × WsData × List (Client × WsData) :=
  let results := ping_all_hosts oracle now st.target_hosts
  let saved := save_ping_results insertFails st.latest_results results
  let broadcast_data := WsData.ping_update results now
  let b := broadcast_to_websockets st.websocket_clients broadcast_data
  ({ st with latest_results := saved.1, websocket_clients := b.1 },
   broadcast_data, b.2)

/-- `PingMonitor.add_target_host`: append the host only if it is not already
present. -/
def add_target_host (st : PingMonitorState) (host : String) : PingMonitorState :=
  if host ∈ st.target_hosts then st
  else { st with target_hosts := st.target_hosts ++ [host] }

/-- `PingMonitor.remove_target_host`: if the host is registered, remove it from
`target_hosts` (`list.remove` drops the first occurrence) and, if present,
delete its `latest_results` entry in the same call (`del` on a dict removes
exactly the entries with that key, modelled by the filter). -/
def remove_target_host (st : PingMonitorState) (host : String) :
    PingMonitorState :=
  if host ∈ st.target_hosts then
    { st with
      target_hosts := st.target_hosts.erase host,
      latest_results :=
        if st.latest_results.any (fun p => p.1 == host) then
          st.latest_results.filter (fun p => p.1 != host)
        else st.latest_results }
  else st

/-- The `WebSocketManager` state from the websocket router: the
`active_connections` dict (connection id → WebSocket) and the monitor's
client set, which `disconnect` also touches. -/
structure WSManagerState where
  active_connections : List (String × Client)
  monitor_clients : List Client
deriving Repr, DecidableEq

/-- `WebSocketManager.disconnect`: delete the id from `active_connections` if
present and discard the socket from the monitor's client set. -/
def ws_disconnect (s : WSManagerState) (connection_id : String) (ws : Client) :
    WSManagerState :=
  { active_connections := s.active_connections.filter (fun p => p.1 != connection_id),
    monitor_clients := s.monitor_clients.filter (fun c => !(c == ws)) }

/-- `WebSocketManager.broadcast`: attempt `send_json(message)` on every active
connection, collect the failing ones, then disconnect each of them after the
loop. Every send exception is caught, so nothing is raised to the caller.
Returns the new manager state and the ids successfully delivered to, with the
message, in iteration order. -/
def ws_broadcast (s : WSManagerState) (message : WsData) :
    WSManagerState × List (String × WsData) :=
  let disconnected_connections :=
    s.active_connections.filter (fun p => p.2.send_fails)
  let delivered :=
    (s.active_connections.filter (fun p => !p.2.send_fails)).map
      (fun p => (p.1, message))
  (disconnected_connections.foldl (fun st p => ws_disconnect st p.1 p.2) s,
   delivered)

/-- One row of the `ping_metrics` table as the summary query sees it
(timestamps are modelled as rational minutes on a common clock). -/
structure PingRow where
  timestamp : ℚ
  target_host : String
  response_time_ms : Option ℚ
  packet_loss : Bool
deriving Repr, DecidableEq

/-- The aggregate columns of `PingMetricsCRUD.get_host_summary` that the
claims are about, plus the derived `uptime_percentage` field the Python code
adds to the row dict. -/
structure HostSummary where
  total_pings : ℕ
  packet_losses : ℕ
  packet_loss_rate : ℚ
  uptime_percentage : ℚ
deriving Repr, DecidableEq

/-- The window start `since_time` computed by `get_host_summary`:
`minutes` wins if given, else `hours`, else the default of 24 hours
(`hours = 24` is set when both are `None`). Times are in minutes. -/
def summary_since_time (now : ℚ) (hours minutes : Option ℤ) : ℚ :=
  match minutes with
  | some m => now - (m : ℚ)
  | none =>
      match hours with
      | some h => now - (h : ℚ) * 60
      | none => now - 24 * 60

/-- `PingMetricsCRUD.get_host_summary`, restricted to the fields the claims
mention. The SQL aggregate runs over the rows with `target_host = $1 AND
timestamp >= $2`; `packet_loss_rate` is
`(COUNT(*) FILTER (WHERE packet_loss = TRUE))::FLOAT / COUNT(*)` and the
Python code then sets `uptime_percentage = 100 - packet_loss_rate` when
`total_pings > 0` and `0` otherwise. (For an empty row set the SQL division
by zero would raise; Lean's total division makes the rate `0` there, and that
branch sets `uptime_percentage = 0` regardless.) -/
def get_host_summary (table : List PingRow) (now : ℚ) (host : String)
    (hours minutes : Option ℤ) : HostSummary :=
  let since_time := summary_since_time now hours minutes
  let rows := table.filter
    (fun r => r.target_host == host && decide (since_time ≤ r.timestamp))
  let total_pings := rows.length
  let packet_losses := (rows.filter (fun r => r.packet_loss)).length
  let packet_loss_rate : ℚ := (packet_losses : ℚ) / (total_pings : ℚ)
  { total_pings := total_pings, packet_losses := packet_losses,
    packet_loss_rate := packet_loss_rate,
    uptime_percentage :=
      if 0 < total_pings then 100 - packet_loss_rate else 0 }

/-- A decoded inbound WebSocket message `{type?, host?, hours?, minutes?}`. -/
structure InMessage where
  type : Option String
  host : Option String
  hours : Option ℤ
  minutes : Option ℤ
deriving Repr, DecidableEq

/-- The outbound replies `handle_websocket_message` can send. `pong` carries
the value of `latest_results.get('timestamp', 'unknown')` (`none` stands for
the `'unknown'` default, since `latest_results` is keyed by host). -/
inductive OutMessage where
  | pong (timestamp : Option Measurement)
  | status_response (monitoring_active : Bool) (target_hosts : List String)
      (ping_interval : ℤ) (latest_results : List (String × Measurement))
  | latest_metrics_response (metrics : List (String × PingRow))
  | subscription_confirmed (host : String) (message : String)
  | host_summary_response (host : String) (summary : HostSummary)
  | error (message : String)
deriving Repr, DecidableEq

/-- Python `str(x)` on an optional string (`None` prints as `"None"`). -/
def pyStr : Option String → String
  | none => "None"
  | some s => s

/-- `handle_websocket_message` from the websocket router: dispatch on
`message.get('type')`. The two branches that await `ping_crud` take the
outcome of that call as an oracle argument (`.ok` result or `.error` with the
exception text). No branch assigns to any monitor state, so the state is
returned unchanged; the reply list is what the branch sends. The Python
truthiness test `if host:` is false for a missing host and for `''`. -/
def handle_websocket_message (st : PingMonitorState)
    (latestMetricsOutcome : Except String (List (String × PingRow)))
    (hostSummaryOutcome : String → Option ℤ → Option ℤ → Except String HostSummary)
    (message : InMessage) : PingMonitorState × List OutMessage :=
  let message_type := message.type
  if message_type = some "ping" then
    (st, [.pong (cacheLookup st.latest_results "timestamp")])
  else if message_type = some "get_status" then
    (st, [.status_response st.is_running st.target_hosts st.ping_interval
            st.latest_results])
  else if message_type = some "get_latest_metrics" then
    match latestMetricsOutcome with
    | .ok metrics => (st, [.latest_metrics_response metrics])
    | .error e => (st, [.error ("Failed to get latest metrics: " ++ e)])
  else if message_type = some "subscribe_host" then
    match message.host with
    | some h =>
        if h = "" then (st, [.error "Host parameter required for subscription"])
        else (st, [.subscription_confirmed h ("Subscribed to updates for " ++ h)])
    | none => (st, [.error "Host parameter required for subscription"])
  else if message_type = some "get_host_summary" then
    match message.host with
    | some h =>
        if h = "" then (st, [.error "Host parameter required for summary"])
        else
          let outcome :=
            if message.minutes.isSome then hostSummaryOutcome h none message.minutes
            else hostSummaryOutcome h message.hours none
          match outcome with
          | .ok summary => (st, [.host_summary_response h summary])
          | .error e => (st, [.error ("Failed to get host summary: " ++ e)])
    | none => (st, [.error "Host parameter required for summary"])
  else
    (st, [.error ("Unknown message type: " ++ pyStr message.type)])

/-! ## Fixtures used by concrete (counter)examples -/

/-- A stored row for host `8.8.8.8` at time `t` with the given loss flag. -/
def fixtureRow (t : ℚ) (loss : Bool) : PingRow :=
  { timestamp := t, target_host := "8.8.8.8",
    response_time_ms := if loss then none else some 20, packet_loss := loss }

/-- Ten stored measurements for `8.8.8.8`, two of them marked unreachable. -/
def fixtureTable : List PingRow :=
  [fixtureRow 1 false, fixtureRow 2 false, fixtureRow 3 true, fixtureRow 4 false,
   fixtureRow 5 false, fixtureRow 6 false, fixtureRow 7 true, fixtureRow 8 false,
   fixtureRow 9 false, fixtureRow 10 false]

/-- The state built by `PingMonitor.__init__`: not running, 1 s interval
(the `PING_INTERVAL` default), the five default targets, no clients, empty
result cache. -/
def initPingMonitor : PingMonitorState :=
  { is_running := false, ping_interval := 1,
    target_hosts := ["8.8.8.8", "1.1.1.1", "208.67.222.222", "google.com",
                     "github.com"],
    websocket_clients := [], latest_results := [] }

/-- A reachable measurement for `8.8.8.8`. -/
def m888 : Measurement :=
  { host := "8.8.8.8", response_time_ms := some 10, packet_loss := false,
    error_message := none, timestamp := "t" }

/-- A reachable measurement for `google.com` (not in the DNS set). -/
def mGoogle : Measurement :=
  { host := "google.com", response_time_ms := some 25, packet_loss := false,
    error_message := none, timestamp := "t" }

/-- An unreachable measurement for `a.com`. -/
def mA : Measurement :=
  { host := "a.com", response_time_ms := none, packet_loss := true,
    error_message := some "timeout", timestamp := "t" }

/-- A reachable measurement for `b.com`. -/
def mB : Measurement :=
  { host := "b.com", response_time_ms := some 5, packet_loss := false,
    error_message := none, timestamp := "t" }

/-- A monitor state whose result cache has entries for `8.8.8.8` and
`google.com`. -/
def populatedMonitor : PingMonitorState :=
  { initPingMonitor with
    latest_results := [("8.8.8.8", m888), ("google.com", mGoogle)] }

/-- A live full-topic subscriber (connected to the ping-status endpoint). -/
def cFull : Client :=
  { id := 1, path := "/api/ws/ping-status", send_fails := false }

/-- A live dns-only subscriber (connected to the dns-status endpoint). -/
def cDns : Client :=
  { id := 2, path := "/api/ws/dns-status", send_fails := false }

/-- A full-topic subscriber whose send raises. -/
def cFullFail : Client :=
  { id := 3, path := "/api/ws/ping-status", send_fails := true }

/-- A `WebSocketManager` state with one failing and one healthy connection. -/
def managerW : WSManagerState :=
  { active_connections := [("conn_1", cFullFail), ("conn_2", cFull)],
    monitor_clients := [cFullFail, cFull] }

/-- Discriminator for the `subscription_confirmed` acknowledgment reply. -/
def isSubscriptionAck : OutMessage → Bool
  | .subscription_confirmed _ _ => true
  | _ => false

/-! ## Helper lemmas -/

/-- `add_target_host` keeps the registry duplicate-free. -/
theorem add_target_host_nodup (st : PingMonitorState) (h : String)
    (hnd : st.target_hosts.Nodup) : (add_target_host st h).target_hosts.Nodup := by
  unfold add_target_host
  by_cases hm : h ∈ st.target_hosts
  · simpa [hm] using hnd
  · simp [hm, List.nodup_append, hnd]

/-- Any sequence of `add_target_host` calls keeps the registry
duplicate-free. -/
theorem foldl_add_target_host_nodup (hs : List String) (st : PingMonitorState)
    (hnd : st.target_hosts.Nodup) :
    ((hs.foldl add_target_host st).target_hosts).Nodup := by
  induction hs generalizing st with
  | nil => simpa using hnd
  | cons a t ih => exact ih _ (add_target_host_nodup st a hnd)

/-- `remove_target_host` on an unregistered host changes nothing. -/
theorem remove_target_host_of_not_mem (st : PingMonitorState) (h : String)
    (hm : h ∉ st.target_hosts) : remove_target_host st h = st := by
  simp [remove_target_host, hm]

/-- Filtering out the key `h` does not change `find?` for another key. -/
theorem find?_filter_key_ne (l : List (String × Measurement)) (h x : String)
    (hx : x ≠ h) :
    (l.filter (fun p => p.1 != h)).find? (fun p => p.1 == x) =
      l.find? (fun p => p.1 == x) := by
  induction l with
  | nil => rfl
  | cons a t ih =>
      by_cases ha : a.1 = h
      · have h1 : (a.1 != h) = false := by simp [ha]
        have h2 : (a.1 == x) = false := by
          rw [ha]
          simp only [beq_eq_false_iff_ne, ne_eq]
          exact fun e => hx e.symm
        simp [List.filter_cons, h1, List.find?_cons, h2, ih]
      · have h1 : (a.1 != h) = true := by simp [ha]
        by_cases hax : a.1 = x
        · have h2 : (a.1 == x) = true := by simp [hax]
          simp [List.filter_cons, h1, List.find?_cons, h2]
        · have h2 : (a.1 == x) = false := by simp [hax]
          simp [List.filter_cons, h1, List.find?_cons, h2, ih]

/-- After filtering out the key `h`, `find?` for `h` fails. -/
theorem find?_filter_key_self (l : List (String × Measurement)) (h : String) :
    (l.filter (fun p => p.1 != h)).find? (fun p => p.1 == h) = none := by
  rw [List.find?_eq_none]
  intro x hx
  have := (List.mem_filter.mp hx).2
  simp only [bne_iff_ne, ne_eq, decide_eq_true_eq] at this
  simpa using this

/-- If no entry has key `h` then `find?` for `h` fails. -/
theorem find?_eq_none_of_any_eq_false (l : List (String × Measurement))
    (h : String) (hany : l.any (fun p => p.1 == h) = false) :
    l.find? (fun p => p.1 == h) = none := by
  rw [List.find?_eq_none]
  intro x hx
  have := List.any_eq_false.mp hany x hx
  simpa using this

/-- The classification of a `ping_update` envelope: replaced by the derived
DNS envelope exactly when some result's host is in the DNS set. -/
theorem classifyDns_ping_update (rs : List Measurement) (ts : String) :
    classifyDns (.ping_update rs ts) =
      if (rs.filter (fun r => dnsHosts.contains r.host)).isEmpty then
        (.ping_update rs ts, false)
      else
        (.dns_status_update (rs.filter (fun r => dnsHosts.contains r.host)) ts,
         true) := by
  cases rs with
  | nil => simp [classifyDns]
  | cons a l => simp [classifyDns]

/-- Everything in the delivered list of `broadcast_to_websockets` is a client
of the input set whose topic matched, whose send succeeded, and who received
the classified envelope. -/
theorem broadcast_delivered_spec (cs : List Client) (d : WsData)
    (p : Client × WsData) (hp : p ∈ (broadcast_to_websockets cs d).2) :
    p.1 ∈ cs ∧ sendCondition (classifyDns d).2 p.1.path = true ∧
    p.1.send_fails = false ∧ p.2 = (classifyDns d).1 := by
  unfold broadcast_to_websockets at hp
  by_cases hcs : cs.isEmpty
  · simp [hcs] at hp
  · simp only [Bool.not_eq_true] at hcs
    simp only [hcs, Bool.false_eq_true, if_false, List.mem_map,
      List.mem_filter, Bool.and_eq_true, Bool.not_eq_true'] at hp
    obtain ⟨c, ⟨hc, hcond, hok⟩, rfl⟩ := hp
    exact ⟨hc, hcond, hok, rfl⟩

/-- A client of the input set whose topic matches and whose send succeeds
receives the classified envelope. -/
theorem mem_broadcast_delivered (cs : List Client) (d : WsData) (c : Client)
    (hc : c ∈ cs) (hcond : sendCondition (classifyDns d).2 c.path = true)
    (hok : c.send_fails = false) :
    (c, (classifyDns d).1) ∈ (broadcast_to_websockets cs d).2 := by
  have hne : cs.isEmpty = false := by
    cases cs
    · simp at hc
    · rfl
  unfold broadcast_to_websockets
  simp only [hne, Bool.false_eq_true, if_false, List.mem_map, List.mem_filter,
    Bool.and_eq_true, Bool.not_eq_true']
  exact ⟨c, ⟨hc, hcond, hok⟩, rfl⟩

/-- A client whose topic does not match the classified envelope receives
nothing from `broadcast_to_websockets`. -/
theorem not_delivered_of_sendCondition_false (cs : List Client) (d : WsData)
    (c : Client) (hcond : sendCondition (classifyDns d).2 c.path = false) :
    ∀ p ∈ (broadcast_to_websockets cs d).2, p.1 ≠ c := by
  intro p hp he
  have h := (broadcast_delivered_spec cs d p hp).2.1
  rw [he, hcond] at h
  exact Bool.false_ne_true h

/-- A client whose attempted send fails is discarded from the client set by
the end of the `broadcast_to_websockets` call. -/
theorem broadcast_removes_failed (cs : List Client) (d : WsData) (c : Client)
    (hc : c ∈ cs) (hfail : c.send_fails = true)
    (hcond : sendCondition (classifyDns d).2 c.path = true) :
    c ∉ (broadcast_to_websockets cs d).1 := by
  have hne : cs.isEmpty = false := by
    cases cs
    · simp at hc
    · rfl
  unfold broadcast_to_websockets
  simp only [hne, Bool.false_eq_true, if_false]
  intro hmem
  have h2 := (List.mem_filter.mp hmem).2
  simp at h2
  rcases h2 with h2 | h2 | h2
  · exact h2 hc
  · rw [h2] at hcond
    simp at hcond
  · rw [h2] at hfail
    simp at hfail

/-- Whenever the classifier marks an envelope as a DNS update, every host in
the classified payload belongs to the reserved DNS set. -/
theorem classifyDns_payload_of_true (data : WsData)
    (h : (classifyDns data).2 = true) :
    ∀ x ∈ payloadHosts (classifyDns data).1, x ∈ dnsHosts := by
  cases data with
  | ping_result r =>
      by_cases hc : dnsHosts.contains r.host = true
      · intro x hx
        simp only [classifyDns] at hx
        rw [if_pos hc] at hx
        simp only [payloadHosts, List.mem_singleton] at hx
        subst hx
        simpa using hc
      · simp only [classifyDns] at h
        rw [if_neg hc] at h
        simp at h
  | ping_update rs ts =>
      rw [classifyDns_ping_update] at h ⊢
      by_cases he : (rs.filter (fun r => dnsHosts.contains r.host)).isEmpty = true
      · rw [if_pos he] at h
        simp at h
      · rw [if_neg he] at h ⊢
        intro x hx
        simp only [payloadHosts, List.mem_map] at hx
        obtain ⟨r, hr, rfl⟩ := hx
        have := (List.mem_filter.mp hr).2
        simpa using this
  | dns_status_result r => simp [classifyDns] at h
  | dns_status_update rs ts => simp [classifyDns] at h

/-- Membership after the fold of `ws_disconnect` calls that ends
`WebSocketManager.broadcast`: a surviving connection was already present and
its id differs from every disconnected id. -/
theorem ws_foldl_disconnect_mem (ds : List (String × Client))
    (s : WSManagerState) (q : String × Client)
    (hq : q ∈ (ds.foldl (fun st p => ws_disconnect st p.1 p.2) s).active_connections) :
    q ∈ s.active_connections ∧ ∀ p ∈ ds, q.1 ≠ p.1 := by
  induction ds generalizing s with
  | nil => exact ⟨hq, by simp⟩
  | cons a t ih =>
      obtain ⟨h1, h2⟩ := ih (ws_disconnect s a.1 a.2) hq
      have h3 := List.mem_filter.mp h1
      refine ⟨h3.1, ?_⟩
      intro p hp
      rcases List.mem_cons.mp hp with rfl | hp
      · have := h3.2
        simpa using this
      · exact h2 p hp

/-- `WebSocketManager.broadcast` removes every connection whose send failed
and delivers the message to every connection whose send succeeded. -/
theorem ws_broadcast_removes_and_delivers (s : WSManagerState) (msg : WsData)
    (id : String) (k : Client) (hk : (id, k) ∈ s.active_connections)
    (hfail : k.send_fails = true) (id2 : String) (k2 : Client)
    (hk2 : (id2, k2) ∈ s.active_connections) (hok : k2.send_fails = false) :
    (∀ q ∈ (ws_broadcast s msg).1.active_connections, q.1 ≠ id) ∧
    (id2, msg) ∈ (ws_broadcast s msg).2 := by
  constructor
  · intro q hq
    unfold ws_broadcast at hq
    have h := ws_foldl_disconnect_mem _ _ q hq
    exact h.2 (id, k) (List.mem_filter.mpr ⟨hk, by simpa using hfail⟩)
  · unfold ws_broadcast
    simp only [List.mem_map, List.mem_filter, Bool.not_eq_true']
    exact ⟨(id2, k2), ⟨hk2, hok⟩, rfl⟩

/-! ## Claim theorems -/

/-- Claim C1: the spec scenario says `get_host_summary` for `"8.8.8.8"` with
`minutes=120` over 10 stored measurements, 2 unreachable, returns
`uptime_percentage == 80.0`. On the code this fails: the SQL computes
`packet_loss_rate` as the fraction `2/10 = 0.2` and the Python then sets
`uptime_percentage = 100 - packet_loss_rate = 99.8`, not `100 * (8/10) = 80`.
This theorem evaluates the embedded code at exactly that failing input. -/
theorem get_host_summary_uptime_bug :
    (get_host_summary fixtureTable 120 "8.8.8.8" none (some 120)).total_pings = 10 ∧
    (get_host_summary fixtureTable 120 "8.8.8.8" none (some 120)).packet_losses = 2 ∧
    (get_host_summary fixtureTable 120 "8.8.8.8" none (some 120)).packet_loss_rate = 1/5 ∧
    (get_host_summary fixtureTable 120 "8.8.8.8" none (some 120)).uptime_percentage = 499/5 ∧
    ¬ (get_host_summary fixtureTable 120 "8.8.8.8" none (some 120)).uptime_percentage = 80 := by
  norm_num [get_host_summary, summary_since_time, fixtureTable, fixtureRow]

/-- Claim C5: `ping_host` maps every outcome of the underlying `ping` call
(value, timeout, raised exception) to a returned measurement — the embedding
is a total function, so no probe failure escapes as an exception — and in the
result `packet_loss = true` implies a non-null `error_message`,
`packet_loss = false` implies a non-null `response_time_ms`; a timeout yields
`packet_loss = true` with the descriptive message. -/
theorem ping_host_total_and_consistent (host : String) (oc : PingOutcome)
    (now : String) :
    ((ping_host host oc now).packet_loss = true →
      (ping_host host oc now).error_message ≠ none) ∧
    ((ping_host host oc now).packet_loss = false →
      (ping_host host oc now).response_time_ms ≠ none) ∧
    (oc = .timeout →
      (ping_host host oc now).packet_loss = true ∧
      (ping_host host oc now).error_message =
        some "Ping timeout or host unreachable") ∧
    (∀ msg, oc = .raised msg →
      (ping_host host oc now).packet_loss = true ∧
      (ping_host host oc now).error_message = some msg) := by
  cases oc <;> simp [ping_host]

/-- Concrete instance of `ping_host_total_and_consistent`: a probe of
`a.com` that times out yields loss with the descriptive message. -/
theorem ping_host_total_and_consistent_witness :
    (ping_host "a.com" .timeout "t").packet_loss = true ∧
    (ping_host "a.com" .timeout "t").error_message =
      some "Ping timeout or host unreachable" :=
  (ping_host_total_and_consistent "a.com" .timeout "t").2.2.1 rfl

/-- Claim C8: for a host `h` in the (duplicate-free, per the registry
invariant) target registry, `remove_target_host` removes `h` from the
registry and deletes `h`'s result-cache entry in the same call, while
membership of every other host in the registry and the cache entry of every
other key are unchanged. -/
theorem remove_target_host_frame (st : PingMonitorState) (h : String)
    (hin : h ∈ st.target_hosts) (hnd : st.target_hosts.Nodup) :
    h ∉ (remove_target_host st h).target_hosts ∧
    (∀ x, x ≠ h →
      (x ∈ (remove_target_host st h).target_hosts ↔ x ∈ st.target_hosts)) ∧
    cacheLookup (remove_target_host st h).latest_results h = none ∧
    (∀ x, x ≠ h →
      cacheLookup (remove_target_host st h).latest_results x =
        cacheLookup st.latest_results x) := by
  have hT : (remove_target_host st h).target_hosts = st.target_hosts.erase h := by
    simp [remove_target_host, hin]
  have hC : (remove_target_host st h).latest_results =
      (if st.latest_results.any (fun p => p.1 == h) then
        st.latest_results.filter (fun p => p.1 != h)
      else st.latest_results) := by
    simp [remove_target_host, hin]
  refine ⟨?_, ?_, ?_, ?_⟩
  · rw [hT]; exact hnd.not_mem_erase
  · intro x hx; rw [hT]; exact List.mem_erase_of_ne hx
  · rw [hC]
    by_cases hany : st.latest_results.any (fun p => p.1 == h) = true
    · simp only [hany, if_pos]
      simp [cacheLookup, find?_filter_key_self]
    · simp only [Bool.not_eq_true] at hany
      simp only [hany, Bool.false_eq_true, if_neg, not_false_iff]
      simp [cacheLookup, find?_eq_none_of_any_eq_false _ _ hany]
  · intro x hx; rw [hC]
    by_cases hany : st.latest_results.any (fun p => p.1 == h) = true
    · simp only [hany, if_pos]
      simp [cacheLookup, find?_filter_key_ne _ _ _ hx]
    · simp only [Bool.not_eq_true] at hany
      simp [hany]

/-- Concrete instance of `remove_target_host_frame`: removing `8.8.8.8` from
the populated monitor evicts exactly its registry entry and its cache entry,
leaving `google.com`'s entries alone. -/
theorem remove_target_host_frame_witness :
    "8.8.8.8" ∉ (remove_target_host populatedMonitor "8.8.8.8").target_hosts ∧
    ("google.com" ∈ (remove_target_host populatedMonitor "8.8.8.8").target_hosts ↔
      "google.com" ∈ populatedMonitor.target_hosts) ∧
    cacheLookup (remove_target_host populatedMonitor "8.8.8.8").latest_results
      "8.8.8.8" = none ∧
    cacheLookup (remove_target_host populatedMonitor "8.8.8.8").latest_results
      "google.com" = cacheLookup populatedMonitor.latest_results "google.com" := by
  have t := remove_target_host_frame populatedMonitor "8.8.8.8"
    (by decide) (by decide)
  exact ⟨t.1, t.2.1 "google.com" (by decide), t.2.2.1,
    t.2.2.2 "google.com" (by decide)⟩

/-- Claim C9: `add_target_host` is a no-op when the host is already
registered, and consequently any sequence of adds starting from a
duplicate-free registry keeps every target at most once in the registry. -/
theorem add_target_host_idempotent (st : PingMonitorState) (h : String)
    (hs : List String) :
    (h ∈ st.target_hosts → add_target_host st h = st) ∧
    (st.target_hosts.Nodup →
      ((hs.foldl add_target_host st).target_hosts).Nodup) := by
  constructor
  · intro hm; simp [add_target_host, hm]
  · exact foldl_add_target_host_nodup hs st

/-- Concrete instance of `add_target_host_idempotent`: re-adding `8.8.8.8`
leaves the initial state unchanged, and a sequence of adds with repetitions
leaves the registry duplicate-free. -/
theorem add_target_host_idempotent_witness :
    add_target_host initPingMonitor "8.8.8.8" = initPingMonitor ∧
    ((["a.com", "8.8.8.8", "a.com"].foldl add_target_host
        initPingMonitor).target_hosts).Nodup := by
  have t := add_target_host_idempotent initPingMonitor "8.8.8.8"
    ["a.com", "8.8.8.8", "a.com"]
  exact ⟨t.1 (by decide), t.2 (by decide)⟩

/-- Claim C10: `remove_target_host` on a host absent from the registry leaves
the whole state (registry and result cache) unchanged, and removal is
idempotent on registries satisfying the at-most-once invariant. -/
theorem remove_target_host_noop_and_idem (st : PingMonitorState) (h : String) :
    (h ∉ st.target_hosts → remove_target_host st h = st) ∧
    (st.target_hosts.Nodup →
      remove_target_host (remove_target_host st h) h = remove_target_host st h) := by
  refine ⟨remove_target_host_of_not_mem st h, ?_⟩
  intro hnd
  by_cases hm : h ∈ st.target_hosts
  · have h1 : (remove_target_host st h).target_hosts = st.target_hosts.erase h := by
      simp [remove_target_host, hm]
    have h2 : h ∉ (remove_target_host st h).target_hosts := by
      rw [h1]; exact hnd.not_mem_erase
    exact remove_target_host_of_not_mem _ h h2
  · rw [remove_target_host_of_not_mem st h hm,
      remove_target_host_of_not_mem st h hm]

/-- Concrete instance of `remove_target_host_noop_and_idem`: removing the
unregistered `zzz.com` changes nothing, and removing `8.8.8.8` twice equals
removing it once. -/
theorem remove_target_host_noop_and_idem_witness :
    remove_target_host populatedMonitor "zzz.com" = populatedMonitor ∧
    remove_target_host (remove_target_host populatedMonitor "8.8.8.8") "8.8.8.8" =
      remove_target_host populatedMonitor "8.8.8.8" := by
  have t1 := remove_target_host_noop_and_idem populatedMonitor "zzz.com"
  have t2 := remove_target_host_noop_and_idem populatedMonitor "8.8.8.8"
  exact ⟨t1.1 (by decide), t2.2 (by decide)⟩

/-- Claim C3 as stated is false: in a cycle whose results include a DNS-set
target (here `8.8.8.8`, alongside `google.com`), the general envelope is
replaced by the derived DNS envelope, and a live full-topic subscriber is
sent nothing at all — not the general envelope the claim promises. -/
theorem full_topic_receives_nothing_on_dns_cycle :
    (broadcast_to_websockets [cFull]
      (WsData.ping_update [m888, mGoogle] "t")).2 = [] := by
  decide

/-- Claim C3 (amended): every live dns-only subscriber is sent the derived
DNS-only envelope when at least one DNS-set target was probed, while a live
full-topic subscriber is sent the general envelope exactly in cycles with no
DNS-set target among the results — when a DNS-set target is present the
general envelope is replaced by the DNS-only one and full-topic subscribers
receive nothing that cycle. -/
theorem broadcast_topic_delivery (cs : List Client) (rs : List Measurement)
    (ts : String) (c : Client) (hc : c ∈ cs) (hok : c.send_fails = false) :
    (c.path = "/api/ws/dns-status" →
      (rs.filter (fun r => dnsHosts.contains r.host)).isEmpty = false →
      (c, WsData.dns_status_update
          (rs.filter (fun r => dnsHosts.contains r.host)) ts)
        ∈ (broadcast_to_websockets cs (.ping_update rs ts)).2) ∧
    (c.path = "/api/ws/ping-status" →
      ((rs.filter (fun r => dnsHosts.contains r.host)).isEmpty = true →
        (c, WsData.ping_update rs ts)
          ∈ (broadcast_to_websockets cs (.ping_update rs ts)).2) ∧
      ((rs.filter (fun r => dnsHosts.contains r.host)).isEmpty = false →
        ∀ p ∈ (broadcast_to_websockets cs (.ping_update rs ts)).2, p.1 ≠ c)) := by
  constructor
  · intro hpath hne
    have hne' : ¬ (rs.filter (fun r => dnsHosts.contains r.host)).isEmpty
        = true := by
      rw [hne]
      decide
    have hcl : classifyDns (.ping_update rs ts) =
        (.dns_status_update (rs.filter (fun r => dnsHosts.contains r.host)) ts,
         true) := by
      rw [classifyDns_ping_update, if_neg hne']
    have hcond : sendCondition (classifyDns (.ping_update rs ts)).2 c.path
        = true := by
      rw [hcl, hpath]
      show sendCondition true "/api/ws/dns-status" = true
      decide
    have hm := mem_broadcast_delivered cs (.ping_update rs ts) c hc hcond hok
    rw [hcl] at hm
    exact hm
  · intro hpath
    constructor
    · intro he
      have hcl : classifyDns (.ping_update rs ts) =
          (.ping_update rs ts, false) := by
        rw [classifyDns_ping_update, if_pos he]
      have hcond : sendCondition (classifyDns (.ping_update rs ts)).2 c.path
          = true := by
        rw [hcl, hpath]
        show sendCondition false "/api/ws/ping-status" = true
        decide
      have hm := mem_broadcast_delivered cs (.ping_update rs ts) c hc hcond hok
      rw [hcl] at hm
      exact hm
    · intro hne
      have hne' : ¬ (rs.filter (fun r => dnsHosts.contains r.host)).isEmpty
          = true := by
        rw [hne]
        decide
      have hcl : classifyDns (.ping_update rs ts) =
          (.dns_status_update (rs.filter (fun r => dnsHosts.contains r.host)) ts,
           true) := by
        rw [classifyDns_ping_update, if_neg hne']
      apply not_delivered_of_sendCondition_false
      rw [hcl, hpath]
      show sendCondition true "/api/ws/ping-status" = false
      decide

/-- Concrete instance of `broadcast_topic_delivery`: the dns-only subscriber
receives the derived envelope of a mixed cycle, and the full-topic subscriber
receives the general envelope of a DNS-free cycle. -/
theorem broadcast_topic_delivery_witness :
    (cDns, WsData.dns_status_update
        ([m888, mGoogle].filter (fun r => dnsHosts.contains r.host)) "t")
      ∈ (broadcast_to_websockets [cDns]
          (WsData.ping_update [m888, mGoogle] "t")).2 ∧
    (cFull, WsData.ping_update [mGoogle] "t")
      ∈ (broadcast_to_websockets [cFull]
          (WsData.ping_update [mGoogle] "t")).2 := by
  constructor
  · exact (broadcast_topic_delivery [cDns] [m888, mGoogle] "t" cDns
      (by decide) (by decide)).1 rfl (by decide)
  · exact ((broadcast_topic_delivery [cFull] [mGoogle] "t" cFull
      (by decide) (by decide)).2 rfl).1 (by decide)

/-- Claim C4: a dns-only subscriber is only ever delivered envelopes all of
whose payload hosts lie in the reserved DNS set, and in a cycle broadcast
(`ping_update`) with no DNS-set target among the results it is delivered
nothing at all. -/
theorem dns_only_subscriber_filtering (cs : List Client) (data : WsData)
    (c : Client) (hpath : c.path = "/api/ws/dns-status") :
    (∀ p ∈ (broadcast_to_websockets cs data).2, p.1 = c →
      ∀ x ∈ payloadHosts p.2, x ∈ dnsHosts) ∧
    (∀ rs ts, data = WsData.ping_update rs ts →
      rs.filter (fun r => dnsHosts.contains r.host) = [] →
      ∀ p ∈ (broadcast_to_websockets cs data).2, p.1 ≠ c) := by
  constructor
  · intro p hp hpc x hx
    have hspec := broadcast_delivered_spec cs data p hp
    have hdns : (classifyDns data).2 = true := by
      cases hb : (classifyDns data).2
      · have hcond := hspec.2.1
        rw [hpc, hpath, hb] at hcond
        exact absurd hcond (by decide)
      · rfl
    rw [hspec.2.2.2] at hx
    exact classifyDns_payload_of_true data hdns x hx
  · intro rs ts hdata hfe p hp hpc
    subst hdata
    have hfe' : (rs.filter (fun r => dnsHosts.contains r.host)).isEmpty = true := by
      rw [hfe]
      rfl
    have hcl : classifyDns (.ping_update rs ts) = (.ping_update rs ts, false) := by
      rw [classifyDns_ping_update, if_pos hfe']
    have hcond := (broadcast_delivered_spec _ _ p hp).2.1
    rw [hpc, hpath, hcl] at hcond
    have hcond' : sendCondition false "/api/ws/dns-status" = true := hcond
    exact absurd hcond' (by decide)

/-- Concrete instance of `dns_only_subscriber_filtering`: the envelope the
dns-only subscriber receives in a mixed cycle carries only the DNS-set host
`8.8.8.8`. -/
theorem dns_only_subscriber_filtering_witness : "8.8.8.8" ∈ dnsHosts :=
  (dns_only_subscriber_filtering [cDns]
      (WsData.ping_update [m888, mGoogle] "t") cDns rfl).1
    (cDns, WsData.dns_status_update [m888] "t") (by decide) rfl
    "8.8.8.8" (by decide)

/-- Claim C7: in both broadcasters, a subscriber whose attempted delivery
fails is removed from its registry by the end of the same broadcast call,
while the failure does not prevent delivery to any other live subscriber of
the same call; both functions catch every send exception (they are total in
the embedding), so nothing is raised to the caller. -/
theorem delivery_failure_isolation (cs : List Client) (d : WsData)
    (c c2 : Client) (s : WSManagerState) (id id2 : String) (k k2 : Client)
    (hc : c ∈ cs) (hfail : c.send_fails = true)
    (hcond : sendCondition (classifyDns d).2 c.path = true)
    (hc2 : c2 ∈ cs) (hok : c2.send_fails = false)
    (hcond2 : sendCondition (classifyDns d).2 c2.path = true)
    (hk : (id, k) ∈ s.active_connections) (hkfail : k.send_fails = true)
    (hk2 : (id2, k2) ∈ s.active_connections) (hk2ok : k2.send_fails = false) :
    c ∉ (broadcast_to_websockets cs d).1 ∧
    (c2, (classifyDns d).1) ∈ (broadcast_to_websockets cs d).2 ∧
    (∀ q ∈ (ws_broadcast s d).1.active_connections, q.1 ≠ id) ∧
    (id2, d) ∈ (ws_broadcast s d).2 := by
  have t := ws_broadcast_removes_and_delivers s d id k hk hkfail id2 k2 hk2 hk2ok
  exact ⟨broadcast_removes_failed cs d c hc hfail hcond,
    mem_broadcast_delivered cs d c2 hc2 hcond2 hok, t.1, t.2⟩

/-- Concrete instance of `delivery_failure_isolation`: with one failing and
one healthy full-topic subscriber, the failing one is pruned from both
registries while the healthy one is still delivered to in the same call. -/
theorem delivery_failure_isolation_witness :
    cFullFail ∉ (broadcast_to_websockets [cFullFail, cFull]
      (WsData.ping_update [mGoogle] "t")).1 ∧
    (cFull, (classifyDns (WsData.ping_update [mGoogle] "t")).1)
      ∈ (broadcast_to_websockets [cFullFail, cFull]
          (WsData.ping_update [mGoogle] "t")).2 ∧
    (∀ q ∈ (ws_broadcast managerW
        (WsData.ping_update [mGoogle] "t")).1.active_connections,
      q.1 ≠ "conn_1") ∧
    ("conn_2", WsData.ping_update [mGoogle] "t")
      ∈ (ws_broadcast managerW (WsData.ping_update [mGoogle] "t")).2 :=
  delivery_failure_isolation [cFullFail, cFull]
    (WsData.ping_update [mGoogle] "t") cFullFail cFull managerW
    "conn_1" "conn_2" cFullFail cFull
    (by decide) (by decide) (by decide) (by decide) (by decide) (by decide)
    (by decide) (by decide) (by decide) (by decide)

/-- Claim C2 as stated is false: `save_ping_results` wraps the whole result
loop in one try/except, so when the insert for `mA` fails, the later `mB` is
neither inserted nor written to the result cache (the failure is logged, as
the `true` flag shows). -/
theorem save_ping_results_not_per_measurement :
    (save_ping_results (fun r => r.host == "a.com") [] [mA, mB]).2.1 = [] ∧
    cacheLookup (save_ping_results (fun r => r.host == "a.com") [] [mA, mB]).1
      "b.com" = none ∧
    (save_ping_results (fun r => r.host == "a.com") [] [mA, mB]).2.2 = true := by
  decide

/-- Closed form of `save_ping_results`: it processes the longest prefix of
results whose inserts succeed, inserting and caching exactly those, logs an
error exactly when some insert fails, and stops at the first failure. -/
theorem save_ping_results_spec (f : Measurement → Bool)
    (cache : List (String × Measurement)) (results : List Measurement) :
    save_ping_results f cache results =
      ((results.takeWhile (fun r => !f r)).foldl updateCache cache,
       results.takeWhile (fun r => !f r),
       results.any f) := by
  induction results generalizing cache with
  | nil => rfl
  | cons r rest ih =>
      by_cases hf : f r = true
      · simp [save_ping_results, hf, List.takeWhile_cons, List.any_cons]
      · simp only [Bool.not_eq_true] at hf
        simp [save_ping_results, hf, List.takeWhile_cons, List.any_cons, ih]

/-- Claim C2 (amended): a failing insert is logged and aborts the remaining
inserts and cache updates of that cycle — exactly the results before the
first failing one are inserted and cached — but the cycle still proceeds to
the broadcast phase, whose envelope carries the full result list of the
cycle independently of any insert failure. -/
theorem save_failure_aborts_batch_but_cycle_broadcasts
    (f : Measurement → Bool) (cache : List (String × Measurement))
    (results : List Measurement) (oracle : String → PingOutcome)
    (insertF : Measurement → Bool) (now : String) (st : PingMonitorState) :
    (save_ping_results f cache results).2.1 =
      results.takeWhile (fun r => !f r) ∧
    (save_ping_results f cache results).1 =
      (results.takeWhile (fun r => !f r)).foldl updateCache cache ∧
    (save_ping_results f cache results).2.2 = results.any f ∧
    (monitoring_cycle oracle insertF now st).2.1 =
      WsData.ping_update (ping_all_hosts oracle now st.target_hosts) now := by
  rw [save_ping_results_spec]
  exact ⟨rfl, rfl, rfl, rfl⟩

/-- Claim C6 as stated is false: a decoded message of kind `subscribe_host`
that carries no `host` field is answered with an `error` reply, not with a
`subscription_confirmed` acknowledgment. -/
theorem subscribe_host_without_host_gets_error :
    (handle_websocket_message initPingMonitor (Except.ok [])
        (fun _ _ _ => Except.error "db")
        { type := some "subscribe_host", host := none, hours := none,
          minutes := none }).2 =
      [OutMessage.error "Host parameter required for subscription"] ∧
    ((handle_websocket_message initPingMonitor (Except.ok [])
        (fun _ _ _ => Except.error "db")
        { type := some "subscribe_host", host := none, hours := none,
          minutes := none }).2.any isSubscriptionAck) = false := by
  decide

/-- Claim C6 (amended): a `subscribe_host` message is answered with the
`subscription_confirmed` acknowledgment when it carries a (non-empty) host
and with an `error` reply otherwise, and in either case the handler changes
no state at all — the monitor state (subscriber registry with its topics,
target registry, result cache) is the same before and after handling. -/
theorem subscribe_host_ack_and_frame (st : PingMonitorState)
    (lm : Except String (List (String × PingRow)))
    (hsO : String → Option ℤ → Option ℤ → Except String HostSummary)
    (msg : InMessage) (htype : msg.type = some "subscribe_host") :
    (handle_websocket_message st lm hsO msg).1 = st ∧
    (∀ h, msg.host = some h → h ≠ "" →
      (handle_websocket_message st lm hsO msg).2 =
        [OutMessage.subscription_confirmed h
          ("Subscribed to updates for " ++ h)]) ∧
    ((msg.host = none ∨ msg.host = some "") →
      (handle_websocket_message st lm hsO msg).2 =
        [OutMessage.error "Host parameter required for subscription"]) := by
  cases hh : msg.host with
  | none =>
      refine ⟨?_, ?_, ?_⟩
      · simp [handle_websocket_message, htype, hh]
      · intro h he
        exact absurd he (by simp)
      · intro _
        simp [handle_websocket_message, htype, hh]
  | some h0 =>
      by_cases h0e : h0 = ""
      · subst h0e
        refine ⟨?_, ?_, ?_⟩
        · simp [handle_websocket_message, htype, hh]
        · intro h he
          intro hne
          exact absurd (Option.some.inj he).symm hne
        · intro _
          simp [handle_websocket_message, htype, hh]
      · refine ⟨?_, ?_, ?_⟩
        · simp [handle_websocket_message, htype, hh, h0e]
        · intro h he
          obtain rfl := Option.some.inj he
          intro _
          simp [handle_websocket_message, htype, hh, h0e]
        · intro hor
          rcases hor with hn | hs
          · exact absurd hn (by simp)
          · exact absurd (Option.some.inj hs) h0e

/-- Concrete instance of `subscribe_host_ack_and_frame`: subscribing to
`google.com` is acknowledged and leaves the initial monitor state intact. -/
theorem subscribe_host_ack_and_frame_witness :
    (handle_websocket_message initPingMonitor (Except.ok [])
        (fun _ _ _ => Except.error "db")
        { type := some "subscribe_host", host := some "google.com",
          hours := none, minutes := none }).1 = initPingMonitor ∧
    (handle_websocket_message initPingMonitor (Except.ok [])
        (fun _ _ _ => Except.error "db")
        { type := some "subscribe_host", host := some "google.com",
          hours := none, minutes := none }).2 =
      [OutMessage.subscription_confirmed "google.com"
        ("Subscribed to updates for " ++ "google.com")] := by
  have t := subscribe_host_ack_and_frame initPingMonitor (Except.ok [])
    (fun _ _ _ => Except.error "db")
    { type := some "subscribe_host", host := some "google.com",
      hours := none, minutes := none } rfl
  exact ⟨t.1, t.2.1 "google.com" rfl (by decide)⟩

end WifiTracker

